import Mathlib

/-!
# Railway traffic-control engine: a shallow embedding

This file embeds the core engine of the railway traffic-control prototype
(`models.py`, `conflict_detector.py`, `optimizer.py`) in Lean 4 and proves the
frozen specification claims about it.

Modelling conventions:
* `datetime` values are integer minutes since an arbitrary epoch (`Int`);
  `timedelta(minutes = k)` is the integer `k`.  All time arithmetic in the
  source happens at whole-minute granularity, so this is exact.
* Python `dict` values keyed by strings are association lists.  A dict
  comprehension `{s.id: s for s in sections}` lets later duplicates win, hence
  the `reverse.find?` in `findSection`.  `d.get(k, 10)` is `lookup` with a
  default.
* Fallible constructs (`KeyError` on indexing, `ZeroDivisionError`,
  `AttributeError` on `None`) are `Except String`.
* Python `float` division on these integer inputs is modelled with exact
  rationals (`ℚ`); `round(x, n)` is modelled by exact rational rounding
  (`roundTo`).  No claim depends on the value produced by rounding.
* Non-deterministic fields that no algorithm reads back (`uuid4` conflict ids,
  `datetime.now()` schedule ids / creation stamps) are omitted from the
  corresponding structures.
-/

namespace Rail

/-- `models.TrainType`. -/
inductive TrainType where
  | EXPRESS
  | LOCAL
  | FREIGHT
  | MAINTENANCE
  | SPECIAL
deriving DecidableEq, Repr

/-- `models.TrainPriority`: ordinal 1 (critical, strongest) … 5 (lowest). -/
inductive TrainPriority where
  | CRITICAL
  | HIGH
  | MEDIUM
  | LOW
  | LOWEST
deriving DecidableEq, Repr

/-- `TrainPriority.value` in Python: the ordinal of the enum member. -/
def TrainPriority.value : TrainPriority → Int
  | .CRITICAL => 1
  | .HIGH => 2
  | .MEDIUM => 3
  | .LOW => 4
  | .LOWEST => 5

/-- `models.SectionType`. -/
inductive SectionType where
  | SINGLE_LINE
  | DOUBLE_LINE
  | JUNCTION
  | PLATFORM
deriving DecidableEq, Repr

/-- `models.TrackSection` (the fields the engine reads). -/
structure TrackSection where
  section_id : String
  name : String
  section_type : SectionType
  length_km : ℚ
  max_speed_kmh : Int
  capacity : Int := 1
  signal_blocks : Int := 1
deriving DecidableEq, Repr

/-- `models.Train`.  `estimated_section_times` is the Python dict as an
association list; lookups use the source's `.get(section_id, 10)` default, so
the `__post_init__` defaulting (10 minutes per route section when the dict is
empty) is observationally identical. -/
structure Train where
  train_id : String
  train_number : String
  train_type : TrainType
  priority : TrainPriority
  route : List String
  scheduled_arrival : Int
  scheduled_departure : Int
  current_section : Option String := none
  current_delay_minutes : Int := 0
  max_speed_kmh : Int := 100
  estimated_section_times : List (String × Int) := []
deriving DecidableEq, Repr

/-- `Train.get_actual_arrival`: scheduled arrival plus current delay. -/
def Train.get_actual_arrival (t : Train) : Int :=
  t.scheduled_arrival + t.current_delay_minutes

/-- `Train.get_actual_departure`: scheduled departure plus current delay. -/
def Train.get_actual_departure (t : Train) : Int :=
  t.scheduled_departure + t.current_delay_minutes

/-- `train.estimated_section_times.get(section_id, 10)`. -/
def sectionTime (t : Train) (sid : String) : Int :=
  (t.estimated_section_times.lookup sid).getD 10

/-- `models.Conflict` (the deterministic fields; the `uuid4` conflict id and
the unused `resolution` slot are omitted). -/
structure Conflict where
  train1 : Train
  train2 : Train
  section_id : String
  conflict_start_time : Int
  conflict_end_time : Int
  severity : Int := 1
deriving DecidableEq, Repr

/-- `Conflict.duration_minutes`. -/
def Conflict.duration_minutes (c : Conflict) : Int :=
  c.conflict_end_time - c.conflict_start_time

/-- `{section.section_id: section for section in sections}[sid]` — a Python
dict comprehension lets the LAST duplicate key win, so we search the reversed
list. -/
def findSection (sections : List TrackSection) (sid : String) : Option TrackSection :=
  sections.reverse.find? (fun s => s.section_id == sid)

/-! ## Conflict detector (`conflict_detector.py`) -/

/-- One `(train, start_time, end_time)` tuple of a per-section occupancy
schedule. -/
structure OccEntry where
  train : Train
  startT : Int
  endT : Int
deriving DecidableEq, Repr

/-- The occupancy entries a single train contributes to section `sid`:
`_generate_section_schedules` walks the route from the actual arrival,
spending `sectionTime` minutes in each section. -/
def trainOccupancyGo (t : Train) (sid : String) : List String → Int → List OccEntry
  | [], _ => []
  | r :: rs, cur =>
    let e := cur + sectionTime t r
    (if r = sid then [⟨t, cur, e⟩] else []) ++ trainOccupancyGo t sid rs e

/-- All entries of section `sid`'s occupancy list, in the order
`_generate_section_schedules` appends them (train order, route order). -/
def occupancies (trains : List Train) (sid : String) : List OccEntry :=
  trains.flatMap (fun t => trainOccupancyGo t sid t.route t.get_actual_arrival)

/-- Stable insertion of `x` into a run of an insertion sort: `x` goes before
the first element it compares `le` to, which matches Python's stable
`list.sort`. -/
def insertLe {α : Type} (le : α → α → Bool) (x : α) : List α → List α
  | [] => [x]
  | y :: ys => if le x y then x :: y :: ys else y :: insertLe le x ys

/-- Stable insertion sort, modelling Python's stable `list.sort(key=...)`. -/
def insertionSortBy {α : Type} (le : α → α → Bool) : List α → List α
  | [] => []
  | x :: xs => insertLe le x (insertionSortBy le xs)

/-- `section_schedules[sid].sort(key=lambda x: x[1])`: sort by start time. -/
def sortedOccupancies (trains : List Train) (sid : String) : List OccEntry :=
  insertionSortBy (fun a b => decide (a.startT ≤ b.startT)) (occupancies trains sid)

/-- First-occurrence deduplication with a `seen` accumulator (structural, so
it evaluates inside the kernel). -/
def dedupFirstGo (seen : List String) : List String → List String
  | [] => []
  | x :: xs =>
    if x ∈ seen then dedupFirstGo seen xs else x :: dedupFirstGo (seen ++ [x]) xs

/-- The keys of the `section_schedules` dict in insertion order: every section
id of every route, first occurrence first. -/
def sectionIdsInOrder (l : List String) : List String :=
  dedupFirstGo [] l

/-- The margined overlap test of `_detect_section_conflicts`:
`max(start1, start2) < min(end1 + margin, end2 + margin)`. -/
def overlapsMargin (m : Int) (a b : OccEntry) : Bool :=
  max a.startT b.startT < min (a.endT + m) (b.endT + m)

/-- The inner `for j` loop skips index `i` itself (index-based, as in the
source). -/
def entryOthers (tt : List OccEntry) (i : Nat) : List OccEntry :=
  (tt.enum.filter (fun p => p.1 ≠ i)).map Prod.snd

/-- `_calculate_conflict_severity`: base 2, priority bumps, duration bumps at
30 and 60 minutes, critical-section bump, clamped to 5. -/
def calculate_conflict_severity (train1 train2 : Train)
    (conflict_start conflict_end : Int) (sec : TrackSection) : Int :=
  let s0 : Int := 2
  let min_priority := min train1.priority.value train2.priority.value
  let s1 := if min_priority = 1 then s0 + 2 else if min_priority = 2 then s0 + 1 else s0
  let conflict_duration := conflict_end - conflict_start
  let s2 := if conflict_duration > 30 then s1 + 1 else s1
  let s3 := if conflict_duration > 60 then s2 + 1 else s2
  let s4 := if sec.section_type = .JUNCTION ∨ sec.section_type = .SINGLE_LINE then s3 + 1 else s3
  min s4 5

/-- `_create_conflict`: `None` (here `none`) when the unmargined window
`[max(start1,start2), min(end1,end2)]` is empty. -/
def create_conflict (train1 train2 : Train) (sec : TrackSection)
    (start1 end1 start2 end2 : Int) : Option Conflict :=
  let conflict_start := max start1 start2
  let conflict_end := min end1 end2
  if conflict_start ≥ conflict_end then none
  else
    some { train1 := train1, train2 := train2, section_id := sec.section_id,
           conflict_start_time := conflict_start, conflict_end_time := conflict_end,
           severity := calculate_conflict_severity train1 train2 conflict_start conflict_end sec }

/-- The unordered-pair-plus-section test of `_conflict_exists` for one stored
conflict. -/
def samePair (c0 c : Conflict) : Bool :=
  ((c0.train1.train_id == c.train1.train_id && c0.train2.train_id == c.train2.train_id) ||
   (c0.train1.train_id == c.train2.train_id && c0.train2.train_id == c.train1.train_id)) &&
  c0.section_id == c.section_id

/-- `_conflict_exists`. -/
def conflict_exists (conflicts : List Conflict) (new_conflict : Conflict) : Bool :=
  conflicts.any (fun c0 => samePair c0 new_conflict)

/-- The body of the `for train2 ... in overlapping_trains` loop: build the
conflict and append it unless an equivalent one is already recorded. -/
def emitPair (sec : TrackSection) (e1 : OccEntry) (acc2 : List Conflict)
    (e2 : OccEntry) : List Conflict :=
  match create_conflict e1.train e2.train sec e1.startT e1.endT e2.startT e2.endT with
  | none => acc2
  | some c => if conflict_exists acc2 c then acc2 else acc2 ++ [c]

/-- The body of the outer `for i` loop of `_detect_section_conflicts` at
index `i` with entry `e1 = train_times[i]`: collect the margined-overlap peers
of entry `i`; when their count reaches the section capacity, emit a
deduplicated conflict per peer. -/
def emitEntry (m : Int) (tt : List OccEntry) (sec : TrackSection)
    (acc : List Conflict) (i : Nat) (e1 : OccEntry) : List Conflict :=
  let overlapping := (entryOthers tt i).filter (overlapsMargin m e1)
  if sec.capacity ≤ (overlapping.length : Int) then
    overlapping.foldl (emitPair sec e1) acc
  else acc

/-- `_detect_section_conflicts`: the outer loop `for i in
range(len(train_times))` together with `train_times[i]` is the fold over the
enumerated entry list. -/
def detect_section_conflicts (m : Int) (tt : List OccEntry) (sec : TrackSection) :
    List Conflict :=
  tt.enum.foldl (fun acc p => emitEntry m tt sec acc p.1 p.2) []

/-- The per-section loop of `detect_conflicts`; `section_dict[section_id]`
raises `KeyError` when a route names an unknown section. -/
def detectConflictsGo (m : Int) (trains : List Train) (sections : List TrackSection) :
    List String → List Conflict → Except String (List Conflict)
  | [], acc => .ok acc
  | sid :: rest, acc =>
    match findSection sections sid with
    | none => .error ("KeyError: " ++ sid)
    | some sec =>
      detectConflictsGo m trains sections rest
        (acc ++ detect_section_conflicts m (sortedOccupancies trains sid) sec)

/-- `ConflictDetector.detect_conflicts` with safety margin `m`. -/
def detect_conflicts (m : Int) (trains : List Train) (sections : List TrackSection) :
    Except String (List Conflict) :=
  detectConflictsGo m trains sections (sectionIdsInOrder (trains.flatMap (·.route))) []

/-! ## Conflict summary (`get_conflict_summary`) -/

/-- The dict `get_conflict_summary` returns.  The Python early return for an
empty input builds a dict with only four keys — `critical_conflicts` is
absent — so that field is an `Option`. -/
structure ConflictSummary where
  total_conflicts : Nat
  severity_breakdown : List (Int × Nat)
  sections_affected : List String
  trains_affected : List String
  critical_conflicts : Option Nat
deriving DecidableEq, Repr

/-- `severity_breakdown[severity] = severity_breakdown.get(severity, 0) + 1`
on a dict in insertion order. -/
def bumpSeverity : List (Int × Nat) → Int → List (Int × Nat)
  | [], sev => [(sev, 1)]
  | (s, n) :: rest, sev =>
    if s = sev then (s, n + 1) :: rest else (s, n) :: bumpSeverity rest sev

/-- `set.add`, modelled as an insertion-ordered deduplicated list (Python set
iteration order is unspecified; no claim depends on it). -/
def setAdd (l : List String) (x : String) : List String :=
  if x ∈ l then l else l ++ [x]

/-- `ConflictDetector.get_conflict_summary`. -/
def get_conflict_summary (conflicts : List Conflict) : ConflictSummary :=
  if conflicts = [] then
    { total_conflicts := 0, severity_breakdown := [], sections_affected := [],
      trains_affected := [], critical_conflicts := none }
  else
    let acc := conflicts.foldl
      (fun (acc : List (Int × Nat) × List String × List String) c =>
        (bumpSeverity acc.1 c.severity,
         setAdd acc.2.1 c.section_id,
         setAdd (setAdd acc.2.2 c.train1.train_number) c.train2.train_number))
      ([], [], [])
    { total_conflicts := conflicts.length,
      severity_breakdown := acc.1,
      sections_affected := acc.2.1,
      trains_affected := acc.2.2,
      critical_conflicts := some ((conflicts.filter (fun c => c.severity ≥ 4)).length) }

/-! ## Schedule optimizer (`optimizer.py`) -/

/-- `_sections_overlap`: margined symmetric test at capacity 1, unmargined at
higher capacity. -/
def sections_overlap (start1 end1 start2 end2 : Int) (m : Int) (sec : TrackSection) : Bool :=
  if sec.capacity = 1 then
    !(end1 + m ≤ start2 || end2 + m ≤ start1)
  else
    !(end1 ≤ start2 || end2 ≤ start1)

/-- The minutes a scheduled train spends before reaching `sid` on its route
(the `time_to_section` accumulation, stopping at the first occurrence). -/
def time_to_section (t : Train) (sid : String) : Int :=
  ((t.route.takeWhile (fun r => r ≠ sid)).map (sectionTime t)).sum

/-- The body of the `for scheduled_train` loop of `_calculate_required_delay`:
skip trains not sharing the section, replay the scheduled train's occupancy
window, and when the windows overlap and the current train is strictly weaker,
take the max with `(other_end + margin) - my_start`. -/
def delayStep (m : Int) (train : Train) (section_id : String)
    (planned_start planned_end : Int) (sec : TrackSection) (acc : Int) (st : Train) : Int :=
  if section_id ∈ st.route then
    let scheduled_section_start := st.get_actual_arrival + time_to_section st section_id
    let scheduled_section_end := scheduled_section_start + sectionTime st section_id
    if sections_overlap planned_start planned_end
        scheduled_section_start scheduled_section_end m sec then
      if train.priority.value > st.priority.value then
        max acc (scheduled_section_end + m - planned_start)
      else acc
    else acc
  else acc

/-- `_calculate_required_delay`: fold `delayStep` over the scheduled trains
from 0, clamp at 0. -/
def calculate_required_delay (m : Int) (train : Train) (section_id : String)
    (planned_start planned_end : Int) (scheduled_trains : List Train)
    (sec : TrackSection) : Int :=
  max 0 (scheduled_trains.foldl (delayStep m train section_id planned_start planned_end sec) 0)

/-- The route loop of `_optimize_single_train`, threading
`(current_arrival, total_delay_added)` exactly as the source does (note the
source adds `total_delay_added` to `current_arrival` both when updating
`current_arrival` and when forming `section_start_time`). -/
def optimizeWalk (m : Int) (train : Train) (scheduled_trains : List Train)
    (sections : List TrackSection) : List String → Int × Int → Except String (Int × Int)
  | [], st => .ok st
  | sid :: rest, (current_arrival, total_delay_added) =>
    match findSection sections sid with
    | none => .error ("KeyError: " ++ sid)
    | some sec =>
      let section_start_time := current_arrival + total_delay_added
      let section_end_time := section_start_time + sectionTime train sid
      let required_delay := calculate_required_delay m train sid
        section_start_time section_end_time scheduled_trains sec
      if required_delay > 0 then
        optimizeWalk m train scheduled_trains sections rest
          (train.get_actual_arrival + (total_delay_added + required_delay),
           total_delay_added + required_delay)
      else
        optimizeWalk m train scheduled_trains sections rest
          (current_arrival, total_delay_added)

/-- `_optimize_single_train`: walk the route accumulating delay, then apply
the accumulated total once (the deep copy means the result is the input train
with only `current_delay_minutes` changed). -/
def optimize_single_train (m : Int) (train : Train) (scheduled_trains : List Train)
    (sections : List TrackSection) : Except String Train :=
  match optimizeWalk m train scheduled_trains sections train.route
      (train.get_actual_arrival, 0) with
  | .error e => .error e
  | .ok (_, total_delay_added) =>
    .ok { train with current_delay_minutes :=
            if total_delay_added > 0 then train.current_delay_minutes + total_delay_added
            else train.current_delay_minutes }

/-- The loop of `_apply_greedy_optimization` after seeding with the first
train. -/
def greedyGo (m : Int) (sections : List TrackSection) :
    List Train → List Train → Except String (List Train)
  | acc, [] => .ok acc
  | acc, t :: ts =>
    match optimize_single_train m t acc sections with
    | .error e => .error e
    | .ok ot => greedyGo m sections (acc ++ [ot]) ts

/-- `_apply_greedy_optimization`: the first (strongest) train is kept
unchanged, each later train is optimized against the already-placed ones. -/
def apply_greedy_optimization (m : Int) (trains : List Train)
    (sections : List TrackSection) : Except String (List Train) :=
  match trains with
  | [] => .ok []
  | t0 :: rest => greedyGo m sections [t0] rest

/-- The sort key of `optimize_schedule`:
`(t.priority.value, t.get_actual_arrival())`, compared lexicographically. -/
def trainLe (t u : Train) : Bool :=
  decide (t.priority.value < u.priority.value) ||
  (decide (t.priority.value = u.priority.value) &&
   decide (t.get_actual_arrival ≤ u.get_actual_arrival))

/-! ## Schedule generation (`_generate_optimized_schedule`) -/

/-- One entry of `Schedule.train_slots` (the dict built by
`add_train_slot`). -/
structure ScheduleSlot where
  train_id : String
  train_number : String
  train_type : TrainType
  priority : Int
  start_time : Int
  end_time : Int
deriving DecidableEq, Repr

/-- `models.Schedule` for one section (the nondeterministic `schedule_id` and
`created_at` stamps are omitted; `conflicts` is never populated here). -/
structure SectionSchedule where
  section_id : String
  train_slots : List ScheduleSlot
  optimized : Bool
deriving DecidableEq, Repr

/-- Dict assignment `d[k] = v`: replace the existing entry or append a new
one. -/
def setEntry : List (String × SectionSchedule) → String → SectionSchedule →
    List (String × SectionSchedule)
  | [], k, v => [(k, v)]
  | (k0, v0) :: rest, k, v =>
    if k0 = k then (k0, v) :: rest else (k0, v0) :: setEntry rest k v

/-- Dict read-and-mutate `schedules[sid].add_train_slot(...)`: `none` when the
key is missing (`KeyError`). -/
def appendSlot : List (String × SectionSchedule) → String → ScheduleSlot →
    Option (List (String × SectionSchedule))
  | [], _, _ => none
  | (k0, v0) :: rest, k, slot =>
    if k0 = k then some ((k0, { v0 with train_slots := v0.train_slots ++ [slot] }) :: rest)
    else (appendSlot rest k slot).map (fun r => (k0, v0) :: r)

/-- The route walk of `_generate_optimized_schedule` for one train: add a slot
per section from the actual arrival onward. -/
def addTrainSlots (t : Train) : List String → Int → List (String × SectionSchedule) →
    Except String (List (String × SectionSchedule))
  | [], _, scheds => .ok scheds
  | sid :: rest, current_time, scheds =>
    let end_time := current_time + sectionTime t sid
    match appendSlot scheds sid
        ⟨t.train_id, t.train_number, t.train_type, t.priority.value, current_time, end_time⟩ with
    | none => .error ("KeyError: " ++ sid)
    | some scheds' => addTrainSlots t rest end_time scheds'

/-- `_generate_optimized_schedule`. -/
def generate_optimized_schedule (trains : List Train) (sections : List TrackSection) :
    Except String (List (String × SectionSchedule)) :=
  let init := sections.foldl
    (fun acc s => setEntry acc s.section_id ⟨s.section_id, [], true⟩) []
  trains.foldlM (fun scheds t => addTrainSlots t t.route t.get_actual_arrival scheds) init

/-! ## Metrics (`_calculate_metrics`) -/

/-- Exact-rational model of Python's `round(x, d)` (the source only ever
rounds float values that this embedding carries exactly; no claim depends on
the tie-breaking direction). -/
def roundTo (q : ℚ) (d : ℕ) : ℚ :=
  ((round (q * (10 : ℚ) ^ d) : ℤ) : ℚ) / (10 : ℚ) ^ d

/-- Python `max` over a nonempty list (0 on `[]`, which the source never
evaluates). -/
def intMaxList : List Int → Int
  | [] => 0
  | x :: xs => xs.foldl max x

/-- Python `min` over a nonempty list (0 on `[]`, which the source never
evaluates). -/
def intMinList : List Int → Int
  | [] => 0
  | x :: xs => xs.foldl min x

/-- The metrics dict of `_calculate_metrics` (stable key set per §6 of the
spec). -/
structure Metrics where
  total_trains : Nat
  original_conflicts : Nat
  optimized_conflicts : Nat
  conflicts_reduced : Int
  original_total_delay : Int
  optimized_total_delay : Int
  additional_delay_introduced : Int
  average_delay_per_train : ℚ
  throughput_trains_per_hour : ℚ
  punctuality_percentage : ℚ
  optimization_effectiveness : ℚ
deriving DecidableEq, Repr

/-- `latest actual departure - earliest actual arrival` over a train list. -/
def timeSpan (trains : List Train) : Int :=
  intMaxList (trains.map (·.get_actual_departure)) -
    intMinList (trains.map (·.get_actual_arrival))

/-- `_calculate_metrics`.  The two inner `detect_conflicts` calls can raise
`KeyError`; the throughput division raises `ZeroDivisionError` when the train
list is nonempty but its time span is zero (only the empty list is guarded in
the source). -/
def calculate_metrics (m : Int) (original_trains optimized_trains : List Train)
    (sections : List TrackSection) : Except String Metrics :=
  let total_original_delay := (original_trains.map (·.current_delay_minutes)).sum
  let total_optimized_delay := (optimized_trains.map (·.current_delay_minutes)).sum
  match detect_conflicts m original_trains sections with
  | .error e => .error e
  | .ok original_conflicts =>
  match detect_conflicts m optimized_trains sections with
  | .error e => .error e
  | .ok optimized_conflicts =>
  match (if original_trains.isEmpty then Except.ok (0 : ℚ) else
      if timeSpan original_trains = 0 then Except.error "ZeroDivisionError"
      else Except.ok ((original_trains.length : ℚ) /
        ((timeSpan original_trains : ℚ) / 60))) with
  | .error e => .error e
  | .ok throughput =>
    let on_time_trains :=
      (optimized_trains.filter (fun t => t.current_delay_minutes ≤ 5)).length
    let punctuality : ℚ :=
      if optimized_trains.isEmpty then 0
      else (on_time_trains : ℚ) / (optimized_trains.length : ℚ) * 100
    .ok
      { total_trains := original_trains.length,
        original_conflicts := original_conflicts.length,
        optimized_conflicts := optimized_conflicts.length,
        conflicts_reduced :=
          (original_conflicts.length : Int) - (optimized_conflicts.length : Int),
        original_total_delay := total_original_delay,
        optimized_total_delay := total_optimized_delay,
        additional_delay_introduced := total_optimized_delay - total_original_delay,
        average_delay_per_train :=
          if optimized_trains.isEmpty then 0
          else (total_optimized_delay : ℚ) / (optimized_trains.length : ℚ),
        throughput_trains_per_hour := roundTo throughput 2,
        punctuality_percentage := roundTo punctuality 1,
        optimization_effectiveness := roundTo
          ((((original_conflicts.length : Int) - (optimized_conflicts.length : Int) : Int) : ℚ) /
            ((max original_conflicts.length 1 : ℕ) : ℚ) * 100) 1 }

/-- The dict `optimize_schedule` returns. -/
structure OptimizeResult where
  optimized_trains : List Train
  schedule : List (String × SectionSchedule)
  metrics : Metrics
  conflicts_remaining : List Conflict
deriving DecidableEq, Repr

/-- `TrainScheduleOptimizer.optimize_schedule` with safety margin `m`: deep
copy (value-identical), stable sort by `(priority, actual arrival)`, greedy
pass, schedule generation, metrics, and a final conflict scan, failing at the
first raised error exactly as the source would. -/
def optimize_schedule (m : Int) (trains : List Train) (sections : List TrackSection) :
    Except String OptimizeResult :=
  let working_trains := insertionSortBy trainLe trains
  match apply_greedy_optimization m working_trains sections with
  | .error e => .error e
  | .ok optimized_trains =>
  match generate_optimized_schedule optimized_trains sections with
  | .error e => .error e
  | .ok schedule =>
  match calculate_metrics m trains optimized_trains sections with
  | .error e => .error e
  | .ok metrics =>
  match detect_conflicts m optimized_trains sections with
  | .error e => .error e
  | .ok remaining =>
    .ok { optimized_trains := optimized_trains, schedule := schedule,
          metrics := metrics, conflicts_remaining := remaining }

/-! ## What-if analyzer (`WhatIfAnalyzer`) -/

/-- The `for ... break` loop of `analyze_delay_scenario`: add the extra delay
to the FIRST train whose id matches (the deep copy makes the rest
value-identical). -/
def applyDelayToFirst (train_id : String) (additional_delay_minutes : Int) :
    List Train → List Train
  | [] => []
  | t :: ts =>
    if t.train_id == train_id then
      { t with current_delay_minutes := t.current_delay_minutes + additional_delay_minutes } :: ts
    else t :: applyDelayToFirst train_id additional_delay_minutes ts

/-- The `impact` sub-dict of a delay-scenario report. -/
structure DelayImpact where
  additional_conflicts : Int
  additional_system_delay : Int
  punctuality_impact : ℚ
deriving DecidableEq, Repr

/-- The report dict of `analyze_delay_scenario`. -/
structure DelayReport where
  scenario_description : String
  original_metrics : Metrics
  scenario_metrics : Metrics
  impact : DelayImpact
deriving DecidableEq, Repr

/-- `WhatIfAnalyzer.analyze_delay_scenario`: a train id absent from the set is
NOT detected — the loop simply finds nothing to mutate and both optimizer runs
proceed on value-identical inputs. -/
def analyze_delay_scenario (m : Int) (trains : List Train)
    (sections : List TrackSection) (train_id : String)
    (additional_delay_minutes : Int) : Except String DelayReport :=
  let scenario_trains := applyDelayToFirst train_id additional_delay_minutes trains
  match optimize_schedule m trains sections with
  | .error e => .error e
  | .ok original_result =>
  match optimize_schedule m scenario_trains sections with
  | .error e => .error e
  | .ok scenario_result =>
    .ok
      { scenario_description :=
          "Train " ++ train_id ++ " delayed by " ++
            toString additional_delay_minutes ++ " minutes",
        original_metrics := original_result.metrics,
        scenario_metrics := scenario_result.metrics,
        impact :=
          { additional_conflicts :=
              (scenario_result.metrics.optimized_conflicts : Int) -
                (original_result.metrics.optimized_conflicts : Int),
            additional_system_delay :=
              scenario_result.metrics.optimized_total_delay -
                original_result.metrics.optimized_total_delay,
            punctuality_impact :=
              scenario_result.metrics.punctuality_percentage -
                original_result.metrics.punctuality_percentage } }

/-- `TrainPriority.name` (the Python enum member name). -/
def TrainPriority.name : TrainPriority → String
  | .CRITICAL => "CRITICAL"
  | .HIGH => "HIGH"
  | .MEDIUM => "MEDIUM"
  | .LOW => "LOW"
  | .LOWEST => "LOWEST"

/-- The `for ... break` loop of `analyze_priority_change`: set the priority of
the first matching train, remembering its original priority (`none` when no
train matched, leaving the Python local at `None`). -/
def setPriorityFirst (train_id : String) (new_priority : TrainPriority) :
    List Train → List Train × Option TrainPriority
  | [] => ([], none)
  | t :: ts =>
    if t.train_id == train_id then ({ t with priority := new_priority } :: ts, some t.priority)
    else
      let r := setPriorityFirst train_id new_priority ts
      (t :: r.1, r.2)

/-- The `impact` sub-dict of a priority-change report. -/
structure PriorityImpact where
  conflicts_change : Int
  delay_change : Int
  punctuality_change : ℚ
deriving DecidableEq, Repr

/-- The report dict of `analyze_priority_change`. -/
structure PriorityReport where
  scenario_description : String
  original_metrics : Metrics
  scenario_metrics : Metrics
  impact : PriorityImpact
deriving DecidableEq, Repr

/-- `WhatIfAnalyzer.analyze_priority_change`: when no train matches,
`original_priority` is still `None` after both optimizer runs, and formatting
the report description raises `AttributeError` on `original_priority.name`. -/
def analyze_priority_change (m : Int) (trains : List Train)
    (sections : List TrackSection) (train_id : String)
    (new_priority : TrainPriority) : Except String PriorityReport :=
  let sp := setPriorityFirst train_id new_priority trains
  match optimize_schedule m trains sections with
  | .error e => .error e
  | .ok original_result =>
  match optimize_schedule m sp.1 sections with
  | .error e => .error e
  | .ok scenario_result =>
    match sp.2 with
    | none => .error "AttributeError: NoneType object has no attribute name"
    | some original_priority =>
      .ok
        { scenario_description :=
            "Train " ++ train_id ++ " priority changed from " ++
              original_priority.name ++ " to " ++ new_priority.name,
          original_metrics := original_result.metrics,
          scenario_metrics := scenario_result.metrics,
          impact :=
            { conflicts_change :=
                (scenario_result.metrics.optimized_conflicts : Int) -
                  (original_result.metrics.optimized_conflicts : Int),
              delay_change :=
                scenario_result.metrics.optimized_total_delay -
                  original_result.metrics.optimized_total_delay,
              punctuality_change :=
                scenario_result.metrics.punctuality_percentage -
                  original_result.metrics.punctuality_percentage } }

/-! ## Object-identity model of `optimize_schedule`

Claim C7 is about Python object identity: `optimize_schedule` must not write
through any caller-supplied `Train` reference, and the returned trains must be
distinct objects.  We model the Python object store explicitly: a `Store` is
the list of all allocated `Train` objects, a reference is an index into it,
`copy.deepcopy` allocates fresh cells, and attribute assignment rewrites the
referenced cell.  The net effect of `_optimize_single_train` (deep-copy one
train, then possibly assign its `current_delay_minutes`) is the allocation of
one fresh cell holding `optimize_single_train`'s value. -/

/-- The placeholder an out-of-range read returns (never reached on valid
references). -/
def dummyTrain : Train :=
  { train_id := "", train_number := "", train_type := .EXPRESS, priority := .MEDIUM,
    route := [], scheduled_arrival := 0, scheduled_departure := 0 }

/-- The store of allocated `Train` objects; a reference is an index. -/
abbrev Store := List Train

/-- Dereference a `Train` object. -/
def readRef (h : Store) (r : Nat) : Train :=
  h.getD r dummyTrain

/-- The loop of `_apply_greedy_optimization` at store level: each step reads
the current train and the already-placed ones, and allocates one fresh object
holding the optimized value. -/
def greedyStoreGo (m : Int) (sections : List TrackSection) :
    Store → List Nat → List Nat → Store × Except String (List Nat)
  | h, accRefs, [] => (h, .ok accRefs)
  | h, accRefs, r :: rs =>
    match optimize_single_train m (readRef h r) (accRefs.map (readRef h)) sections with
    | .error e => (h, .error e)
    | .ok ot => greedyStoreGo m sections (h ++ [ot]) (accRefs ++ [h.length]) rs

/-- `_apply_greedy_optimization` at store level: the first working copy is
appended by reference, the rest as in `greedyStoreGo`. -/
def applyGreedyStore (m : Int) (sections : List TrackSection) (h : Store) :
    List Nat → Store × Except String (List Nat)
  | [] => (h, .ok [])
  | r0 :: rest => greedyStoreGo m sections h [r0] rest

/-- `optimize_schedule` at store level: `copy.deepcopy(trains)` allocates
fresh cells for the working copy, the working references are sorted by value,
the greedy pass runs, and the (purely reading) schedule/metrics/conflict steps
are replayed on the values so that errors propagate exactly as in the pure
model. -/
def optimize_schedule_store (m : Int) (h : Store) (refs : List Nat)
    (sections : List TrackSection) : Store × Except String (List Nat) :=
  let copies := refs.map (readRef h)
  let h1 := h ++ copies
  let wrefs := (List.range refs.length).map (fun i => h.length + i)
  let sortedRefs := insertionSortBy (fun r r' => trainLe (readRef h1 r) (readRef h1 r')) wrefs
  match applyGreedyStore m sections h1 sortedRefs with
  | (h2, .error e) => (h2, .error e)
  | (h2, .ok outRefs) =>
    let optimized := outRefs.map (readRef h2)
    match generate_optimized_schedule optimized sections with
    | .error e => (h2, .error e)
    | .ok _ =>
    match calculate_metrics m (refs.map (readRef h2)) optimized sections with
    | .error e => (h2, .error e)
    | .ok _ =>
    match detect_conflicts m optimized sections with
    | .error e => (h2, .error e)
    | .ok _ => (h2, .ok outRefs)

/-! ## Concrete sample data for witnesses and counterexamples -/

/-- Capacity-1 single-line section `A`. -/
def secA0 : TrackSection :=
  { section_id := "A", name := "A", section_type := .SINGLE_LINE, length_km := 1,
    max_speed_kmh := 100, capacity := 1 }

/-- Capacity-1 single-line section `B`. -/
def secB0 : TrackSection := { secA0 with section_id := "B", name := "B" }

/-- Capacity-1 single-line section `S1`. -/
def sec10 : TrackSection := { secA0 with section_id := "S1", name := "S1" }

/-- Capacity-2 double-line section `S1`. -/
def secC2 : TrackSection :=
  { sec10 with section_type := .DOUBLE_LINE, capacity := 2 }

/-- A high-priority train occupying `S1` for `[0, 60)`. -/
def vA : Train :=
  { train_id := "A", train_number := "A1", train_type := .EXPRESS, priority := .HIGH,
    route := ["S1"], scheduled_arrival := 0, scheduled_departure := 60,
    estimated_section_times := [("S1", 60)] }

/-- A medium-priority train occupying `S1` for `[10, 70)`. -/
def vB : Train :=
  { vA with
    train_id := "B", train_number := "B1", priority := .MEDIUM,
    scheduled_arrival := 10 }

/-- A second train occupying `S1` for `[0, 60)` (used on the capacity-2
section). -/
def vC : Train :=
  { vA with train_id := "C", train_number := "C1", priority := .MEDIUM }

/-- Critical-priority scheduled train occupying `A` for `[0, 10)`. -/
def sT1 : Train :=
  { train_id := "S1t", train_number := "S1t", train_type := .EXPRESS,
    priority := .CRITICAL, route := ["A"], scheduled_arrival := 0,
    scheduled_departure := 10, estimated_section_times := [("A", 10)] }

/-- Critical-priority scheduled train occupying `B` for `[20, 30)`. -/
def sT2 : Train :=
  { sT1 with
    train_id := "S2t", train_number := "S2t", route := ["B"],
    scheduled_arrival := 20, scheduled_departure := 30,
    estimated_section_times := [("B", 10)] }

/-- Medium-priority train routed through `A` then `B`. -/
def tX : Train :=
  { train_id := "X", train_number := "X", train_type := .LOCAL, priority := .MEDIUM,
    route := ["A", "B"], scheduled_arrival := 0, scheduled_departure := 20,
    estimated_section_times := [("A", 10), ("B", 10)] }

/-- A train whose scheduled departure equals its scheduled arrival (zero time
span). -/
def tZ0 : Train :=
  { train_id := "Z", train_number := "Z", train_type := .LOCAL, priority := .MEDIUM,
    route := ["A"], scheduled_arrival := 0, scheduled_departure := 0,
    estimated_section_times := [("A", 10)] }

/-- A well-behaved train on section `A` (positive time span). -/
def tG0 : Train := { tZ0 with scheduled_departure := 60 }

/-- High-priority train on `A` for `[0, 20)`. -/
def wA0 : Train :=
  { train_id := "A", train_number := "A1", train_type := .EXPRESS, priority := .HIGH,
    route := ["A"], scheduled_arrival := 0, scheduled_departure := 60,
    estimated_section_times := [("A", 20)] }

/-- Low-priority train on `A` for `[10, 30)` before optimization. -/
def wB0 : Train :=
  { wA0 with
    train_id := "B", train_number := "B1", priority := .LOW,
    scheduled_arrival := 10 }

/-- The conflict `detect_conflicts 5 [vA, vB] [sec10]` reports. -/
def cEx : Conflict :=
  { train1 := vA, train2 := vB, section_id := "S1", conflict_start_time := 10,
    conflict_end_time := 60, severity := 5 }

/-! ## Severity bounds (claims C9/C10) -/

/-- `_calculate_conflict_severity` always lands in `[2, 5]`: it starts at 2,
only adds, and clamps at 5. -/
theorem calculate_conflict_severity_bounds (t1 t2 : Train) (cs ce : Int)
    (sec : TrackSection) :
    2 ≤ calculate_conflict_severity t1 t2 cs ce sec ∧
      calculate_conflict_severity t1 t2 cs ce sec ≤ 5 := by
  unfold calculate_conflict_severity
  dsimp only
  split_ifs <;> decide

/-- Any conflict produced by `_create_conflict` carries a severity computed by
`_calculate_conflict_severity`, hence in `[2, 5]`. -/
theorem create_conflict_severity (t1 t2 : Train) (sec : TrackSection)
    (s1 e1 s2 e2 : Int) (c : Conflict)
    (h : create_conflict t1 t2 sec s1 e1 s2 e2 = some c) :
    2 ≤ c.severity ∧ c.severity ≤ 5 := by
  unfold create_conflict at h
  dsimp only at h
  split_ifs at h
  cases h
  exact calculate_conflict_severity_bounds ..

/-- `emitPair` only adds conflicts with in-range severity. -/
theorem mem_emitPair (sec : TrackSection) (e1 : OccEntry) (acc2 : List Conflict)
    (e2 : OccEntry) (c : Conflict) (h : c ∈ emitPair sec e1 acc2 e2) :
    c ∈ acc2 ∨ (2 ≤ c.severity ∧ c.severity ≤ 5) := by
  unfold emitPair at h
  cases hc : create_conflict e1.train e2.train sec e1.startT e1.endT e2.startT e2.endT with
  | none => rw [hc] at h; exact Or.inl h
  | some c0 =>
    rw [hc] at h
    dsimp only at h
    split_ifs at h
    · exact Or.inl h
    · rcases List.mem_append.mp h with h' | h'
      · exact Or.inl h'
      · have : c = c0 := List.mem_singleton.mp h'
        subst this
        exact Or.inr (create_conflict_severity _ _ _ _ _ _ _ _ hc)

/-- Folding `emitPair` only adds conflicts with in-range severity. -/
theorem mem_foldl_emitPair (sec : TrackSection) (e1 : OccEntry) :
    ∀ (l : List OccEntry) (acc : List Conflict) (c : Conflict),
      c ∈ l.foldl (emitPair sec e1) acc →
      c ∈ acc ∨ (2 ≤ c.severity ∧ c.severity ≤ 5)
  | [], _, _, h => Or.inl h
  | e :: es, acc, c, h => by
    rcases mem_foldl_emitPair sec e1 es (emitPair sec e1 acc e) c h with h' | h'
    · exact mem_emitPair sec e1 acc e c h'
    · exact Or.inr h'

/-- `emitEntry` only adds conflicts with in-range severity. -/
theorem mem_emitEntry (m : Int) (tt : List OccEntry) (sec : TrackSection)
    (acc : List Conflict) (i : Nat) (e1 : OccEntry) (c : Conflict)
    (h : c ∈ emitEntry m tt sec acc i e1) :
    c ∈ acc ∨ (2 ≤ c.severity ∧ c.severity ≤ 5) := by
  unfold emitEntry at h
  dsimp only at h
  split_ifs at h
  · exact mem_foldl_emitPair sec e1 _ acc c h
  · exact Or.inl h

/-- Folding `emitEntry` over enumerated entries only adds conflicts with
in-range severity. -/
theorem mem_foldl_emitEntry (m : Int) (tt : List OccEntry) (sec : TrackSection) :
    ∀ (ps : List (Nat × OccEntry)) (acc : List Conflict) (c : Conflict),
      c ∈ ps.foldl (fun acc p => emitEntry m tt sec acc p.1 p.2) acc →
      c ∈ acc ∨ (2 ≤ c.severity ∧ c.severity ≤ 5)
  | [], _, _, h => Or.inl h
  | p :: ps, acc, c, h => by
    rcases mem_foldl_emitEntry m tt sec ps (emitEntry m tt sec acc p.1 p.2) c h with h' | h'
    · exact mem_emitEntry m tt sec acc p.1 p.2 c h'
    · exact Or.inr h'

/-- Every conflict of `_detect_section_conflicts` has severity in `[2, 5]`. -/
theorem detect_section_conflicts_severity (m : Int) (tt : List OccEntry)
    (sec : TrackSection) (c : Conflict) (h : c ∈ detect_section_conflicts m tt sec) :
    2 ≤ c.severity ∧ c.severity ≤ 5 := by
  rcases mem_foldl_emitEntry m tt sec tt.enum [] c h with h' | h'
  · cases h'
  · exact h'

/-- The per-section loop preserves the severity range. -/
theorem detectConflictsGo_severity (m : Int) (trains : List Train)
    (sections : List TrackSection) :
    ∀ (sids : List String) (acc : List Conflict) (cs : List Conflict),
      detectConflictsGo m trains sections sids acc = .ok cs →
      (∀ c ∈ acc, 2 ≤ c.severity ∧ c.severity ≤ 5) →
      ∀ c ∈ cs, 2 ≤ c.severity ∧ c.severity ≤ 5
  | [], acc, cs, h, hacc => by
    cases h
    exact hacc
  | sid :: rest, acc, cs, h, hacc => by
    unfold detectConflictsGo at h
    cases hf : findSection sections sid with
    | none => rw [hf] at h; cases h
    | some sec =>
      rw [hf] at h
      refine detectConflictsGo_severity m trains sections rest _ cs h ?_
      intro c hc
      rcases List.mem_append.mp hc with h' | h'
      · exact hacc c h'
      · exact detect_section_conflicts_severity m _ sec c h'

/-- The conflicts of a successful run (the empty list on a raised error). -/
def conflictsOf (r : Except String (List Conflict)) : List Conflict :=
  match r with
  | .ok cs => cs
  | .error _ => []

/-- C10 — every conflict `detect_conflicts` emits has severity between 2 and
5: the computation starts at base 2 and only adds, so the documented minimum
severity 1 is never produced. -/
theorem detected_severity_bounds (m : Int) (trains : List Train)
    (sections : List TrackSection) (c : Conflict)
    (h : c ∈ conflictsOf (detect_conflicts m trains sections)) :
    2 ≤ c.severity ∧ c.severity ≤ 5 := by
  unfold conflictsOf at h
  cases hd : detect_conflicts m trains sections with
  | error e => rw [hd] at h; cases h
  | ok cs =>
    rw [hd] at h
    exact detectConflictsGo_severity m trains sections _ [] cs hd (by intro c hc; cases hc) c h

/-- C10 witness: the concrete conflict between `vA` and `vB` on the
capacity-1 section `S1` is detected and its severity is in range. -/
theorem detected_severity_bounds_witness : 2 ≤ cEx.severity ∧ cEx.severity ≤ 5 :=
  detected_severity_bounds 5 [vA, vB] [sec10] cEx (by decide)

/-! ## Claim C9: severity monotonicity across duration thresholds -/

/-- C9 counterexample: with a critical-priority train on a single-line
section the severity is already clamped at 5 for a 20-minute overlap, so
crossing the 30-minute threshold (duration 40) does NOT strictly increase it —
the claimed strict +1 per threshold fails at the clamp. -/
theorem severity_clamped_at_threshold :
    (20 : Int) - 0 ≤ 30 ∧ (30 : Int) < 40 - 0 ∧
    calculate_conflict_severity sT1 tX 0 20 secA0 = 5 ∧
    calculate_conflict_severity sT1 tX 0 40 secA0 = 5 := by decide

/-- C9 amended: holding the trains and the section fixed, crossing a duration
threshold (≤30 → >30, and >30∧≤60 → >60) never decreases the severity,
increases it by exactly 1 whenever the lower-duration severity is still below
the cap 5, and the severity never exceeds 5. -/
theorem severity_threshold_monotonicity (t1 t2 : Train) (sec : TrackSection)
    (s d1 d2 d3 : Int) (h1 : d1 - s ≤ 30) (h2 : 30 < d2 - s) (h3 : d2 - s ≤ 60)
    (h4 : 60 < d3 - s) :
    (calculate_conflict_severity t1 t2 s d1 sec ≤
        calculate_conflict_severity t1 t2 s d2 sec ∧
      (calculate_conflict_severity t1 t2 s d1 sec < 5 →
        calculate_conflict_severity t1 t2 s d2 sec =
          calculate_conflict_severity t1 t2 s d1 sec + 1)) ∧
    (calculate_conflict_severity t1 t2 s d2 sec ≤
        calculate_conflict_severity t1 t2 s d3 sec ∧
      (calculate_conflict_severity t1 t2 s d2 sec < 5 →
        calculate_conflict_severity t1 t2 s d3 sec =
          calculate_conflict_severity t1 t2 s d2 sec + 1)) ∧
    calculate_conflict_severity t1 t2 s d3 sec ≤ 5 := by
  unfold calculate_conflict_severity
  dsimp only
  split_ifs <;> omega

/-- C9 witness: two medium-priority trains on the double-line section, with
overlap durations 20, 40 and 70 minutes — severities 2, 3, 4. -/
theorem severity_threshold_monotonicity_witness :
    (calculate_conflict_severity tX tG0 secC2.length_km.num 20 secC2 ≤
        calculate_conflict_severity tX tG0 secC2.length_km.num 40 secC2 ∧
      (calculate_conflict_severity tX tG0 secC2.length_km.num 20 secC2 < 5 →
        calculate_conflict_severity tX tG0 secC2.length_km.num 40 secC2 =
          calculate_conflict_severity tX tG0 secC2.length_km.num 20 secC2 + 1)) ∧
    (calculate_conflict_severity tX tG0 secC2.length_km.num 40 secC2 ≤
        calculate_conflict_severity tX tG0 secC2.length_km.num 70 secC2 ∧
      (calculate_conflict_severity tX tG0 secC2.length_km.num 40 secC2 < 5 →
        calculate_conflict_severity tX tG0 secC2.length_km.num 70 secC2 =
          calculate_conflict_severity tX tG0 secC2.length_km.num 40 secC2 + 1)) ∧
    calculate_conflict_severity tX tG0 secC2.length_km.num 70 secC2 ≤ 5 :=
  severity_threshold_monotonicity tX tG0 secC2 secC2.length_km.num 20 40 70
    (by decide) (by decide) (by decide) (by decide)

/-! ## Claim C6: conflict summary fields -/

/-- C6 counterexample: the early return of `get_conflict_summary` for an
empty conflict list builds a four-field dict — `critical_conflicts` is
absent, so the empty input does NOT have the same field set. -/
theorem empty_summary_missing_critical_field :
    get_conflict_summary [] =
      { total_conflicts := 0, severity_breakdown := [], sections_affected := [],
        trains_affected := [], critical_conflicts := none } := rfl

/-- C6 amended: on a NONEMPTY conflict list the summary carries all five
fields, with `total_conflicts` the list length and `critical_conflicts` the
count of conflicts with severity ≥ 4; the empty input instead yields the
four-field zeroed record that lacks `critical_conflicts`. -/
theorem summary_fields (conflicts : List Conflict) (h : conflicts ≠ []) :
    (get_conflict_summary []).critical_conflicts = none ∧
    (get_conflict_summary conflicts).total_conflicts = conflicts.length ∧
    (get_conflict_summary conflicts).critical_conflicts =
      some ((conflicts.filter (fun c => c.severity ≥ 4)).length) := by
  refine ⟨rfl, ?_, ?_⟩ <;> simp [get_conflict_summary, h]

/-- C6 witness: the singleton list containing the detected sample conflict. -/
theorem summary_fields_witness :
    (get_conflict_summary [cEx]).total_conflicts = 1 ∧
    (get_conflict_summary [cEx]).critical_conflicts = some 1 := by
  have h := summary_fields [cEx] (by decide)
  exact ⟨h.2.1, by rw [h.2.2]; decide⟩

/-! ## Claim C2: conflict emission, deduplication, order independence -/

/-- No two conflicts of the list report the same unordered train pair in the
same section (the property `_conflict_exists` is meant to maintain). -/
def NoDupPairs (l : List Conflict) : Prop :=
  l.Pairwise (fun a b => samePair a b = false)

/-- `emitPair` preserves pair-uniqueness: an append is guarded by
`_conflict_exists`. -/
theorem noDup_emitPair (sec : TrackSection) (e1 : OccEntry) (acc2 : List Conflict)
    (e2 : OccEntry) (h : NoDupPairs acc2) : NoDupPairs (emitPair sec e1 acc2 e2) := by
  unfold emitPair
  cases hc : create_conflict e1.train e2.train sec e1.startT e1.endT e2.startT e2.endT with
  | none => exact h
  | some c =>
    dsimp only
    split_ifs with hex
    · exact h
    · unfold NoDupPairs at h ⊢
      rw [List.pairwise_append]
      refine ⟨h, List.pairwise_singleton _ _, ?_⟩
      intro a ha b hb
      have hb' : b = c := List.mem_singleton.mp hb
      subst hb'
      unfold conflict_exists at hex
      rw [Bool.not_eq_true] at hex
      rw [List.any_eq_false] at hex
      simpa using hex a ha

/-- Folding `emitPair` preserves pair-uniqueness. -/
theorem noDup_foldl_emitPair (sec : TrackSection) (e1 : OccEntry) :
    ∀ (l : List OccEntry) (acc : List Conflict), NoDupPairs acc →
      NoDupPairs (l.foldl (emitPair sec e1) acc)
  | [], _, h => h
  | e :: es, acc, h =>
    noDup_foldl_emitPair sec e1 es (emitPair sec e1 acc e) (noDup_emitPair sec e1 acc e h)

/-- `emitEntry` preserves pair-uniqueness. -/
theorem noDup_emitEntry (m : Int) (tt : List OccEntry) (sec : TrackSection)
    (acc : List Conflict) (i : Nat) (e1 : OccEntry) (h : NoDupPairs acc) :
    NoDupPairs (emitEntry m tt sec acc i e1) := by
  unfold emitEntry
  dsimp only
  split_ifs
  · exact noDup_foldl_emitPair sec e1 _ acc h
  · exact h

/-- Folding `emitEntry` preserves pair-uniqueness. -/
theorem noDup_foldl_emitEntry (m : Int) (tt : List OccEntry) (sec : TrackSection) :
    ∀ (ps : List (Nat × OccEntry)) (acc : List Conflict), NoDupPairs acc →
      NoDupPairs (ps.foldl (fun acc p => emitEntry m tt sec acc p.1 p.2) acc)
  | [], _, h => h
  | p :: ps, acc, h =>
    noDup_foldl_emitEntry m tt sec ps (emitEntry m tt sec acc p.1 p.2)
      (noDup_emitEntry m tt sec acc p.1 p.2 h)

/-- Per section, `_detect_section_conflicts` reports each unordered train pair
at most once, whatever the traversal order produced. -/
theorem detect_section_conflicts_noDup (m : Int) (tt : List OccEntry)
    (sec : TrackSection) : NoDupPairs (detect_section_conflicts m tt sec) :=
  noDup_foldl_emitEntry m tt sec tt.enum [] (List.Pairwise.nil)

/-- Evaluation of `_detect_section_conflicts` on a sorted two-entry occupancy
list of a capacity-1 section whose unmargined windows genuinely overlap:
exactly one conflict, for the pair in list order, with the overlap window. -/
theorem detect_two_entries (m : Int) (sec : TrackSection) (u v : OccEntry)
    (hm : 0 ≤ m) (hcap : sec.capacity = 1)
    (hov : max u.startT v.startT < min u.endT v.endT) :
    detect_section_conflicts m [u, v] sec =
      [{ train1 := u.train, train2 := v.train, section_id := sec.section_id,
         conflict_start_time := max u.startT v.startT,
         conflict_end_time := min u.endT v.endT,
         severity := calculate_conflict_severity u.train v.train
           (max u.startT v.startT) (min u.endT v.endT) sec }] := by
  have ho1 : overlapsMargin m u v = true := by
    simp only [overlapsMargin, decide_eq_true_eq]
    omega
  have ho2 : overlapsMargin m v u = true := by
    simp only [overlapsMargin, decide_eq_true_eq]
    omega
  have hlt : ¬ (max u.startT v.startT ≥ min u.endT v.endT) := by omega
  have hlt' : ¬ (max v.startT u.startT ≥ min v.endT u.endT) := by omega
  have hcr1 : create_conflict u.train v.train sec u.startT u.endT v.startT v.endT =
      some { train1 := u.train, train2 := v.train, section_id := sec.section_id,
             conflict_start_time := max u.startT v.startT,
             conflict_end_time := min u.endT v.endT,
             severity := calculate_conflict_severity u.train v.train
               (max u.startT v.startT) (min u.endT v.endT) sec } := by
    unfold create_conflict
    dsimp only
    rw [if_neg hlt]
  have hcr2 : create_conflict v.train u.train sec v.startT v.endT u.startT u.endT =
      some { train1 := v.train, train2 := u.train, section_id := sec.section_id,
             conflict_start_time := max v.startT u.startT,
             conflict_end_time := min v.endT u.endT,
             severity := calculate_conflict_severity v.train u.train
               (max v.startT u.startT) (min v.endT u.endT) sec } := by
    unfold create_conflict
    dsimp only
    rw [if_neg hlt']
  unfold detect_section_conflicts
  rw [show ([u, v].enum) = [(0, u), (1, v)] from rfl]
  rw [List.foldl_cons, List.foldl_cons, List.foldl_nil]
  dsimp only
  have e0 : emitEntry m [u, v] sec [] 0 u =
      [{ train1 := u.train, train2 := v.train, section_id := sec.section_id,
         conflict_start_time := max u.startT v.startT,
         conflict_end_time := min u.endT v.endT,
         severity := calculate_conflict_severity u.train v.train
           (max u.startT v.startT) (min u.endT v.endT) sec }] := by
    unfold emitEntry
    dsimp only
    rw [show entryOthers [u, v] 0 = [v] from rfl]
    rw [show List.filter (overlapsMargin m u) [v] = [v] by simp [ho1]]
    rw [show (List.length [v] : Int) = 1 from rfl, hcap, if_pos (le_refl (1 : Int))]
    rw [List.foldl_cons, List.foldl_nil]
    unfold emitPair
    rw [hcr1]
    simp [conflict_exists]
  rw [e0]
  unfold emitEntry
  dsimp only
  rw [show entryOthers [u, v] 1 = [u] from rfl]
  rw [show List.filter (overlapsMargin m v) [u] = [u] by simp [ho2]]
  rw [show (List.length [u] : Int) = 1 from rfl, hcap, if_pos (le_refl (1 : Int))]
  rw [List.foldl_cons, List.foldl_nil]
  unfold emitPair
  rw [hcr2]
  dsimp only
  rw [if_pos (by simp [conflict_exists, samePair])]

/-- `c` reports exactly the unordered pair `{t, u}`. -/
def isPairOf (c : Conflict) (t u : Train) : Prop :=
  (c.train1 = t ∧ c.train2 = u) ∨ (c.train1 = u ∧ c.train2 = t)

/-- Two trains whose single-section routes genuinely overlap on a capacity-1
section produce exactly one detected conflict, on that pair. -/
theorem detect_two_trains (m : Int) (t1 t2 : Train) (sec : TrackSection)
    (hm : 0 ≤ m) (hr1 : t1.route = [sec.section_id]) (hr2 : t2.route = [sec.section_id])
    (hcap : sec.capacity = 1)
    (hov : max t1.get_actual_arrival t2.get_actual_arrival <
      min (t1.get_actual_arrival + sectionTime t1 sec.section_id)
          (t2.get_actual_arrival + sectionTime t2 sec.section_id)) :
    ∃ c, detect_conflicts m [t1, t2] [sec] = .ok [c] ∧ isPairOf c t1 t2 := by
  have hids : sectionIdsInOrder ([t1, t2].flatMap (·.route)) = [sec.section_id] := by
    simp [hr1, hr2, sectionIdsInOrder, dedupFirstGo]
  have hocc : occupancies [t1, t2] sec.section_id =
      [⟨t1, t1.get_actual_arrival, t1.get_actual_arrival + sectionTime t1 sec.section_id⟩,
       ⟨t2, t2.get_actual_arrival, t2.get_actual_arrival + sectionTime t2 sec.section_id⟩] := by
    simp [occupancies, hr1, hr2, trainOccupancyGo]
  have hfind : findSection [sec] sec.section_id = some sec := by
    simp [findSection]
  unfold detect_conflicts
  rw [hids]
  unfold detectConflictsGo
  rw [hfind]
  unfold detectConflictsGo
  unfold sortedOccupancies
  rw [hocc]
  by_cases hc : t1.get_actual_arrival ≤ t2.get_actual_arrival
  · rw [show insertionSortBy (fun a b => decide (a.startT ≤ b.startT))
        [(⟨t1, t1.get_actual_arrival, t1.get_actual_arrival + sectionTime t1 sec.section_id⟩ : OccEntry),
         ⟨t2, t2.get_actual_arrival, t2.get_actual_arrival + sectionTime t2 sec.section_id⟩] =
        [⟨t1, t1.get_actual_arrival, t1.get_actual_arrival + sectionTime t1 sec.section_id⟩,
         ⟨t2, t2.get_actual_arrival, t2.get_actual_arrival + sectionTime t2 sec.section_id⟩] by
      simp [insertionSortBy, insertLe, hc]]
    rw [detect_two_entries m sec _ _ hm hcap hov]
    refine ⟨{ train1 := t1, train2 := t2, section_id := sec.section_id,
              conflict_start_time := max t1.get_actual_arrival t2.get_actual_arrival,
              conflict_end_time := min (t1.get_actual_arrival + sectionTime t1 sec.section_id)
                (t2.get_actual_arrival + sectionTime t2 sec.section_id),
              severity := calculate_conflict_severity t1 t2
                (max t1.get_actual_arrival t2.get_actual_arrival)
                (min (t1.get_actual_arrival + sectionTime t1 sec.section_id)
                  (t2.get_actual_arrival + sectionTime t2 sec.section_id)) sec },
      ?_, Or.inl ⟨rfl, rfl⟩⟩
    rw [List.nil_append]
  · have hov2 : max t2.get_actual_arrival t1.get_actual_arrival <
        min (t2.get_actual_arrival + sectionTime t2 sec.section_id)
            (t1.get_actual_arrival + sectionTime t1 sec.section_id) := by omega
    rw [show insertionSortBy (fun a b => decide (a.startT ≤ b.startT))
        [(⟨t1, t1.get_actual_arrival, t1.get_actual_arrival + sectionTime t1 sec.section_id⟩ : OccEntry),
         ⟨t2, t2.get_actual_arrival, t2.get_actual_arrival + sectionTime t2 sec.section_id⟩] =
        [⟨t2, t2.get_actual_arrival, t2.get_actual_arrival + sectionTime t2 sec.section_id⟩,
         ⟨t1, t1.get_actual_arrival, t1.get_actual_arrival + sectionTime t1 sec.section_id⟩] by
      simp [insertionSortBy, insertLe, hc]]
    rw [detect_two_entries m sec _ _ hm hcap hov2]
    refine ⟨{ train1 := t2, train2 := t1, section_id := sec.section_id,
              conflict_start_time := max t2.get_actual_arrival t1.get_actual_arrival,
              conflict_end_time := min (t2.get_actual_arrival + sectionTime t2 sec.section_id)
                (t1.get_actual_arrival + sectionTime t1 sec.section_id),
              severity := calculate_conflict_severity t2 t1
                (max t2.get_actual_arrival t1.get_actual_arrival)
                (min (t2.get_actual_arrival + sectionTime t2 sec.section_id)
                  (t1.get_actual_arrival + sectionTime t1 sec.section_id)) sec },
      ?_, Or.inr ⟨rfl, rfl⟩⟩
    rw [List.nil_append]

/-- C2 counterexample: on the CAPACITY-2 section `S1`, trains `vA` and `vC`
both occupy `[0, 60)`; each occupancy entry margin-overlaps the other, so the
count of overlapping entries INCLUDING the entry itself is 2 ≥ capacity — yet
the code compares the count of OTHER overlapping entries (1) against the
capacity and emits nothing.  The claimed inclusive-count trigger is false. -/
theorem capacity_two_pair_no_conflict :
    sortedOccupancies [vA, vC] "S1" = [⟨vA, 0, 60⟩, ⟨vC, 0, 60⟩] ∧
    overlapsMargin 5 ⟨vA, 0, 60⟩ ⟨vC, 0, 60⟩ = true ∧
    overlapsMargin 5 ⟨vC, 0, 60⟩ ⟨vA, 0, 60⟩ = true ∧
    secC2.capacity = 2 ∧
    detect_conflicts 5 [vA, vC] [secC2] = .ok [] := by
  refine ⟨by decide, by decide, by decide, by decide, ?_⟩
  rfl

/-- C2 amended: a Conflict is emitted for entry `i` only when the count of
OTHER overlapping entries reaches the capacity and the pair's unmargined
windows genuinely overlap; each unordered pair yields at most one Conflict
per section regardless of traversal order; and two trains sharing a
capacity-1 section with genuinely overlapping windows yield exactly one
Conflict, independent of the order of the two trains in the input list. -/
theorem conflict_dedup_and_single_conflict (m : Int) (t1 t2 : Train)
    (sec : TrackSection) (hm : 0 ≤ m) (hr1 : t1.route = [sec.section_id])
    (hr2 : t2.route = [sec.section_id]) (hcap : sec.capacity = 1)
    (hov : max t1.get_actual_arrival t2.get_actual_arrival <
      min (t1.get_actual_arrival + sectionTime t1 sec.section_id)
          (t2.get_actual_arrival + sectionTime t2 sec.section_id)) :
    (∀ (m' : Int) (tt : List OccEntry) (sec' : TrackSection),
        NoDupPairs (detect_section_conflicts m' tt sec')) ∧
    (∃ c, detect_conflicts m [t1, t2] [sec] = .ok [c] ∧ isPairOf c t1 t2) ∧
    (∃ c, detect_conflicts m [t2, t1] [sec] = .ok [c] ∧ isPairOf c t1 t2) := by
  refine ⟨fun m' tt sec' => detect_section_conflicts_noDup m' tt sec', ?_, ?_⟩
  · exact detect_two_trains m t1 t2 sec hm hr1 hr2 hcap hov
  · have hov' : max t2.get_actual_arrival t1.get_actual_arrival <
        min (t2.get_actual_arrival + sectionTime t2 sec.section_id)
            (t1.get_actual_arrival + sectionTime t1 sec.section_id) := by omega
    rcases detect_two_trains m t2 t1 sec hm hr2 hr1 hcap hov' with ⟨c, hdet, hpair⟩
    exact ⟨c, hdet, hpair.symm⟩

/-- C2 witness: the overlapping trains `vA` (`[0, 60)`) and `vB` (`[10, 70)`)
on the capacity-1 section `S1`, in both input orders. -/
theorem conflict_dedup_and_single_conflict_witness :
    (∀ (m' : Int) (tt : List OccEntry) (sec' : TrackSection),
        NoDupPairs (detect_section_conflicts m' tt sec')) ∧
    (∃ c, detect_conflicts 5 [vA, vB] [sec10] = .ok [c] ∧ isPairOf c vA vB) ∧
    (∃ c, detect_conflicts 5 [vB, vA] [sec10] = .ok [c] ∧ isPairOf c vA vB) :=
  conflict_dedup_and_single_conflict 5 vA vB sec10 (by decide) (by decide)
    (by decide) (by decide) (by decide)

/-! ## Claim C1: optimization only ever adds delay -/

/-- Membership through stable insertion. -/
theorem mem_insertLe {α : Type} (le : α → α → Bool) (x : α) :
    ∀ (l : List α) (y : α), y ∈ insertLe le x l ↔ y = x ∨ y ∈ l
  | [], y => by simp [insertLe]
  | z :: zs, y => by
    unfold insertLe
    split_ifs
    · simp [List.mem_cons]
    · rw [List.mem_cons, mem_insertLe le x zs y, List.mem_cons]
      tauto

/-- Membership through the stable insertion sort. -/
theorem mem_insertionSortBy {α : Type} (le : α → α → Bool) :
    ∀ (l : List α) (y : α), y ∈ insertionSortBy le l ↔ y ∈ l
  | [], _ => Iff.rfl
  | x :: xs, y => by
    unfold insertionSortBy
    rw [mem_insertLe le x _ y, mem_insertionSortBy le xs y, List.mem_cons]

/-- Along the route walk the accumulated delay never decreases (only positive
required delays are added). -/
theorem optimizeWalk_mono (m : Int) (train : Train) (sched : List Train)
    (sections : List TrackSection) :
    ∀ (route : List String) (st res : Int × Int),
      optimizeWalk m train sched sections route st = .ok res → st.2 ≤ res.2
  | [], st, res, h => by cases h; exact le_refl _
  | sid :: rest, (a, t), res, h => by
    unfold optimizeWalk at h
    cases hf : findSection sections sid with
    | none => rw [hf] at h; cases h
    | some sec =>
      rw [hf] at h
      dsimp only at h
      split_ifs at h with hrd
      · have h2 := optimizeWalk_mono m train sched sections rest _ res h
        have h3 : t + calculate_required_delay m train sid (a + t)
            (a + t + sectionTime train sid) sched sec ≤ res.2 := h2
        have : (0 : Int) < calculate_required_delay m train sid (a + t)
            (a + t + sectionTime train sid) sched sec := hrd
        show t ≤ res.2
        omega
      · exact optimizeWalk_mono m train sched sections rest _ res h

/-- `_optimize_single_train` returns the input train with only
`current_delay_minutes` changed, and never decreased. -/
theorem optimize_single_train_shape (m : Int) (train : Train) (sched : List Train)
    (sections : List TrackSection) (t' : Train)
    (h : optimize_single_train m train sched sections = .ok t') :
    train.current_delay_minutes ≤ t'.current_delay_minutes ∧
    t' = { train with current_delay_minutes := t'.current_delay_minutes } := by
  unfold optimize_single_train at h
  cases hw : optimizeWalk m train sched sections train.route (train.get_actual_arrival, 0) with
  | error e => rw [hw] at h; cases h
  | ok st =>
    rw [hw] at h
    have hmono : (0 : Int) ≤ st.2 :=
      optimizeWalk_mono m train sched sections train.route _ st hw
    cases h
    refine ⟨?_, rfl⟩
    dsimp only
    split_ifs <;> omega

/-- Every train emitted by the greedy loop is either one of the seeds or the
result of `_optimize_single_train` on one of the processed trains. -/
theorem greedyGo_out (m : Int) (sections : List TrackSection) :
    ∀ (ts acc out : List Train), greedyGo m sections acc ts = .ok out →
      ∀ t' ∈ out, t' ∈ acc ∨
        ∃ t ∈ ts, ∃ sched, optimize_single_train m t sched sections = .ok t'
  | [], acc, out, h, t', ht' => by cases h; exact Or.inl ht'
  | tr :: ts, acc, out, h, t', ht' => by
    unfold greedyGo at h
    cases ho : optimize_single_train m tr acc sections with
    | error e => rw [ho] at h; cases h
    | ok ot =>
      rw [ho] at h
      rcases greedyGo_out m sections ts (acc ++ [ot]) out h t' ht' with h' | ⟨t, htm, sched, hopt⟩
      · rcases List.mem_append.mp h' with h'' | h''
        · exact Or.inl h''
        · have he : t' = ot := List.mem_singleton.mp h''
          subst he
          exact Or.inr ⟨tr, List.mem_cons_self _ _, acc, ho⟩
      · exact Or.inr ⟨t, List.mem_cons_of_mem _ htm, sched, hopt⟩

/-- A successful `optimize_schedule` returns exactly the greedy pass's trains
(on the sorted working copy). -/
theorem optimize_schedule_trains (m : Int) (trains : List Train)
    (sections : List TrackSection) (res : OptimizeResult)
    (h : optimize_schedule m trains sections = .ok res) :
    apply_greedy_optimization m (insertionSortBy trainLe trains) sections =
      .ok res.optimized_trains := by
  unfold optimize_schedule at h
  dsimp only at h
  cases hg : apply_greedy_optimization m (insertionSortBy trainLe trains) sections with
  | error e => rw [hg] at h; cases h
  | ok opt =>
    rw [hg] at h
    dsimp only at h
    cases hs : generate_optimized_schedule opt sections with
    | error e => rw [hs] at h; cases h
    | ok sch =>
      rw [hs] at h
      cases hm2 : calculate_metrics m trains opt sections with
      | error e => rw [hm2] at h; cases h
      | ok mt =>
        rw [hm2] at h
        cases hd : detect_conflicts m opt sections with
        | error e => rw [hd] at h; cases h
        | ok rem => rw [hd] at h; cases h; rfl

/-- The optimized train list of a run (`[]` on a raised error). -/
def optimizedTrainsOf (r : Except String OptimizeResult) : List Train :=
  match r with
  | .ok res => res.optimized_trains
  | .error _ => []

/-- C1 — every train in the result of `optimize_schedule` is one of the input
trains with `current_delay_minutes` greater than or equal to its input value
(and every other field unchanged): optimization only ever adds delay. -/
theorem optimize_only_adds_delay (m : Int) (trains : List Train)
    (sections : List TrackSection) (t' : Train)
    (h : t' ∈ optimizedTrainsOf (optimize_schedule m trains sections)) :
    ∃ t ∈ trains, t.current_delay_minutes ≤ t'.current_delay_minutes ∧
      t' = { t with current_delay_minutes := t'.current_delay_minutes } := by
  unfold optimizedTrainsOf at h
  cases hr : optimize_schedule m trains sections with
  | error e => rw [hr] at h; cases h
  | ok res =>
    rw [hr] at h
    dsimp only at h
    have hg := optimize_schedule_trains m trains sections res hr
    cases hsort : insertionSortBy trainLe trains with
    | nil =>
      rw [hsort] at hg
      unfold apply_greedy_optimization at hg
      have hnil : ([] : List Train) = res.optimized_trains := by injection hg
      rw [← hnil] at h
      cases h
    | cons t0 rest =>
      rw [hsort] at hg
      unfold apply_greedy_optimization at hg
      rcases greedyGo_out m sections rest [t0] res.optimized_trains hg t' h with h' | ⟨t, htm, sched, hopt⟩
      · have he : t' = t0 := List.mem_singleton.mp h'
        subst he
        refine ⟨t', ?_, le_refl _, rfl⟩
        have : t' ∈ insertionSortBy trainLe trains := by
          rw [hsort]; exact List.mem_cons_self _ _
        exact (mem_insertionSortBy trainLe trains t').mp this
      · have htr : t ∈ trains := by
          have : t ∈ insertionSortBy trainLe trains := by
            rw [hsort]; exact List.mem_cons_of_mem _ htm
          exact (mem_insertionSortBy trainLe trains t).mp this
        rcases optimize_single_train_shape m t sched sections t' hopt with ⟨hle, heq⟩
        exact ⟨t, htr, hle, heq⟩

/-- The low-priority train `wB0` after optimization against `wA0`. -/
def wB15 : Train := { wB0 with current_delay_minutes := 15 }

/-- C1 witness: on the two-train capacity-1 scenario the delayed copy of
`wB0` appears in the optimizer output and only its delay grew. -/
theorem optimize_only_adds_delay_witness :
    ∃ t ∈ [wB0, wA0], t.current_delay_minutes ≤ wB15.current_delay_minutes ∧
      wB15 = { t with current_delay_minutes := wB15.current_delay_minutes } :=
  optimize_only_adds_delay 5 [wB0, wA0] [secA0] wB15 (by decide)

/-! ## Claim C3: priority gating, per-conflict formula, accumulation -/

/-- Claim-side formulation of the spec's step 3d: the per-conflict required
delays `(other.end + margin) − mine.start`, one for each already-scheduled
train that shares the section, overlaps the planned window under the
capacity-aware test, and is strictly stronger than the current train. -/
def specRequiredDelays (m : Int) (train : Train) (sid : String) (ps pe : Int)
    (sec : TrackSection) : List Train → List Int
  | [] => []
  | st :: rest =>
    (if sid ∈ st.route ∧
        sections_overlap ps pe (st.get_actual_arrival + time_to_section st sid)
          (st.get_actual_arrival + time_to_section st sid + sectionTime st sid) m sec = true ∧
        train.priority.value > st.priority.value
     then [st.get_actual_arrival + time_to_section st sid + sectionTime st sid + m - ps]
     else []) ++ specRequiredDelays m train sid ps pe sec rest

/-- The code's fold agrees with folding `max` over the claim-side per-conflict
delay list. -/
theorem foldl_delayStep_spec (m : Int) (train : Train) (sid : String)
    (ps pe : Int) (sec : TrackSection) :
    ∀ (sched : List Train) (acc : Int),
      sched.foldl (delayStep m train sid ps pe sec) acc =
        (specRequiredDelays m train sid ps pe sec sched).foldl max acc
  | [], _ => rfl
  | st :: rest, acc => by
    rw [List.foldl_cons]
    unfold delayStep specRequiredDelays
    dsimp only
    by_cases h1 : sid ∈ st.route
    · rw [if_pos h1]
      by_cases h2 : sections_overlap ps pe (st.get_actual_arrival + time_to_section st sid)
          (st.get_actual_arrival + time_to_section st sid + sectionTime st sid) m sec = true
      · rw [if_pos h2]
        by_cases h3 : train.priority.value > st.priority.value
        · rw [if_pos h3, if_pos ⟨h1, h2, h3⟩, List.singleton_append, List.foldl_cons]
          exact foldl_delayStep_spec m train sid ps pe sec rest _
        · rw [if_neg h3, if_neg (fun hc => h3 hc.2.2), List.nil_append]
          exact foldl_delayStep_spec m train sid ps pe sec rest acc
      · rw [if_neg h2, if_neg (fun hc => h2 hc.2.1), List.nil_append]
        exact foldl_delayStep_spec m train sid ps pe sec rest acc
    · rw [if_neg h1, if_neg (fun hc => h1 hc.1), List.nil_append]
      exact foldl_delayStep_spec m train sid ps pe sec rest acc

/-- Against a scheduled set of only equal-or-stronger trains the claim-side
delay list is empty. -/
theorem specRequiredDelays_nonweaker (m : Int) (train : Train) (sid : String)
    (ps pe : Int) (sec : TrackSection) :
    ∀ (sch : List Train), (∀ st ∈ sch, train.priority.value ≤ st.priority.value) →
      specRequiredDelays m train sid ps pe sec sch = []
  | [], _ => rfl
  | st :: rest, h => by
    unfold specRequiredDelays
    rw [if_neg (fun hc => absurd hc.2.2 (not_lt.mpr (h st (List.mem_cons_self _ _)))),
      List.nil_append]
    exact specRequiredDelays_nonweaker m train sid ps pe sec rest
      (fun u hu => h u (List.mem_cons_of_mem _ hu))

/-- Mirror of the route walk collecting the positive per-section required
delays in the order the code applies them. -/
def walkAppliedDelays (m : Int) (train : Train) (sched : List Train)
    (sections : List TrackSection) : List String → Int × Int → List Int
  | [], _ => []
  | sid :: rest, (a, t) =>
    match findSection sections sid with
    | none => []
    | some sec =>
      let rd := calculate_required_delay m train sid (a + t)
        (a + t + sectionTime train sid) sched sec
      if rd > 0 then
        rd :: walkAppliedDelays m train sched sections rest
          (train.get_actual_arrival + (t + rd), t + rd)
      else walkAppliedDelays m train sched sections rest (a, t)

/-- The total delay accumulated along the walk is the SUM of the per-section
required delays applied on the way. -/
theorem optimizeWalk_sum (m : Int) (train : Train) (sched : List Train)
    (sections : List TrackSection) :
    ∀ (route : List String) (st res : Int × Int),
      optimizeWalk m train sched sections route st = .ok res →
      res.2 = st.2 + (walkAppliedDelays m train sched sections route st).sum
  | [], st, res, h => by cases h; simp [walkAppliedDelays]
  | sid :: rest, (a, t), res, h => by
    unfold optimizeWalk at h
    unfold walkAppliedDelays
    cases hf : findSection sections sid with
    | none => rw [hf] at h; cases h
    | some sec =>
      rw [hf] at h
      dsimp only at h ⊢
      split_ifs at h ⊢ with hrd
      · have hrec := optimizeWalk_sum m train sched sections rest _ res h
        rw [List.sum_cons]
        have hr2 : res.2 = (t + calculate_required_delay m train sid (a + t)
            (a + t + sectionTime train sid) sched sec) +
            (walkAppliedDelays m train sched sections rest
              (train.get_actual_arrival + (t + calculate_required_delay m train sid (a + t)
                (a + t + sectionTime train sid) sched sec),
               t + calculate_required_delay m train sid (a + t)
                (a + t + sectionTime train sid) sched sec)).sum := hrec
        show res.2 = t + _
        omega
      · exact optimizeWalk_sum m train sched sections rest _ res h

/-- C3 counterexample: train `tX` (priority 3) against the critical scheduled
trains `sT1` (section `A`, `[0,10)`) and `sT2` (section `B`, `[20,30)`): the
section-A conflict requires 15 minutes and, after accumulation, the section-B
conflict requires 5 more; the total delay applied is 20 = 15 + 5, NOT the
claimed maximum 15 of the individual requirements. -/
theorem per_section_delays_sum_not_max :
    calculate_required_delay 5 tX "A" 0 10 [sT1, sT2] secA0 = 15 ∧
    calculate_required_delay 5 tX "B" 30 40 [sT1, sT2] secB0 = 5 ∧
    optimize_single_train 5 tX [sT1, sT2] [secA0, secB0] =
      Except.ok { tX with current_delay_minutes := 20 } ∧
    (20 : Int) ≠ max 15 5 := by
  refine ⟨by decide, by decide, ?_, by decide⟩
  rfl

/-- C3 amended: delay is required only from trains strictly weaker than the
already-scheduled one (an all-stronger schedule requires none); within one
section the requirement is the clamped maximum of the per-conflict values
`(other.end + margin) − mine.start`; and across the route the per-section
requirements are applied cumulatively — the delay added after the whole route
is their SUM (each later section evaluated under the delay accumulated so
far), not their maximum. -/
theorem required_delay_accumulation (m : Int) (train : Train)
    (sched : List Train) (sections : List TrackSection) (t' : Train)
    (hopt : optimize_single_train m train sched sections = .ok t') :
    (∀ (sid : String) (ps pe : Int) (sec : TrackSection) (sch : List Train),
        (∀ st ∈ sch, train.priority.value ≤ st.priority.value) →
          calculate_required_delay m train sid ps pe sch sec = 0) ∧
    (∀ (sid : String) (ps pe : Int) (sec : TrackSection) (sch : List Train),
        calculate_required_delay m train sid ps pe sch sec =
          max 0 ((specRequiredDelays m train sid ps pe sec sch).foldl max 0)) ∧
    t'.current_delay_minutes = train.current_delay_minutes +
      (walkAppliedDelays m train sched sections train.route
        (train.get_actual_arrival, 0)).sum := by
  refine ⟨?_, ?_, ?_⟩
  · intro sid ps pe sec sch hweak
    unfold calculate_required_delay
    rw [foldl_delayStep_spec, specRequiredDelays_nonweaker m train sid ps pe sec sch hweak]
    rfl
  · intro sid ps pe sec sch
    unfold calculate_required_delay
    rw [foldl_delayStep_spec]
  · unfold optimize_single_train at hopt
    cases hw : optimizeWalk m train sched sections train.route
        (train.get_actual_arrival, 0) with
    | error e => rw [hw] at hopt; cases hopt
    | ok st =>
      rw [hw] at hopt
      have hmono : (0 : Int) ≤ st.2 :=
        optimizeWalk_mono m train sched sections train.route _ st hw
      have hsum := optimizeWalk_sum m train sched sections train.route _ st hw
      cases hopt
      dsimp only
      split_ifs with ht <;> omega

/-- C3 witness: the counterexample scenario instantiates the amended claim —
the applied delay 20 is the sum of the walk's per-section requirements. -/
theorem required_delay_accumulation_witness :
    (∀ (sid : String) (ps pe : Int) (sec : TrackSection) (sch : List Train),
        (∀ st ∈ sch, tX.priority.value ≤ st.priority.value) →
          calculate_required_delay 5 tX sid ps pe sch sec = 0) ∧
    (∀ (sid : String) (ps pe : Int) (sec : TrackSection) (sch : List Train),
        calculate_required_delay 5 tX sid ps pe sch sec =
          max 0 ((specRequiredDelays 5 tX sid ps pe sec sch).foldl max 0)) ∧
    ({ tX with current_delay_minutes := 20 } : Train).current_delay_minutes =
      tX.current_delay_minutes +
        (walkAppliedDelays 5 tX [sT1, sT2] [secA0, secB0] tX.route
          (tX.get_actual_arrival, 0)).sum :=
  required_delay_accumulation 5 tX [sT1, sT2] [secA0, secB0]
    { tX with current_delay_minutes := 20 } (by rfl)

/-! ## Claim C5: the throughput division and its guards -/

/-- The metrics of a run (`none` on a raised error). -/
def metricsOf (r : Except String OptimizeResult) : Option Metrics :=
  r.toOption.map (·.metrics)

/-- C5 counterexample: a single train whose scheduled departure equals its
scheduled arrival makes the original set's time span zero, and the throughput
division raises `ZeroDivisionError` — `optimize_schedule` is NOT zero-guarded
there. -/
theorem zero_span_division_error :
    optimize_schedule 5 [tZ0] [secA0] = Except.error "ZeroDivisionError" := rfl

/-- With a nonempty train list of zero time span, `_calculate_metrics` always
raises (the guard only covers the empty list). -/
theorem calculate_metrics_zero_span (m : Int) (trains opt : List Train)
    (sections : List TrackSection) (hne : trains ≠ []) (hspan : timeSpan trains = 0)
    (mt : Metrics) : calculate_metrics m trains opt sections ≠ .ok mt := by
  intro h
  unfold calculate_metrics at h
  dsimp only at h
  cases hd1 : detect_conflicts m trains sections with
  | error e => rw [hd1] at h; exact Except.noConfusion h
  | ok cs1 =>
    rw [hd1] at h
    cases hd2 : detect_conflicts m opt sections with
    | error e => rw [hd2] at h; exact Except.noConfusion h
    | ok cs2 =>
      rw [hd2] at h
      rw [show trains.isEmpty = false by
        cases trains with
        | nil => exact absurd rfl hne
        | cons a l => rfl] at h
      rw [if_neg (by simp)] at h
      rw [if_pos hspan] at h
      exact Except.noConfusion h

/-- C5 amended: the metrics computation is division-guarded for the EMPTY
train list (total 0, throughput 0, punctuality 0, no error), and for a
nonempty list throughput divides by the time span — but when that span is
zero the code raises a `ZeroDivisionError` instead of being zero-guarded. -/
theorem metrics_division_guards (m : Int) (sections : List TrackSection)
    (trains : List Train) (hne : trains ≠ []) (hspan : timeSpan trains = 0) :
    (optimize_schedule m [] sections).isOk = true ∧
    (∃ mt, metricsOf (optimize_schedule m [] sections) = some mt ∧
      mt.total_trains = 0 ∧ mt.throughput_trains_per_hour = 0 ∧
      mt.punctuality_percentage = 0) ∧
    (∀ res, optimize_schedule m trains sections ≠ .ok res) := by
  refine ⟨rfl, ⟨_, rfl, rfl, by show roundTo 0 2 = 0; simp [roundTo],
    by show roundTo 0 1 = 0; simp [roundTo]⟩, ?_⟩
  intro res h
  unfold optimize_schedule at h
  dsimp only at h
  cases hg : apply_greedy_optimization m (insertionSortBy trainLe trains) sections with
  | error e => rw [hg] at h; exact Except.noConfusion h
  | ok opt =>
    rw [hg] at h
    dsimp only at h
    cases hs : generate_optimized_schedule opt sections with
    | error e => rw [hs] at h; exact Except.noConfusion h
    | ok sch =>
      rw [hs] at h
      dsimp only at h
      cases hm2 : calculate_metrics m trains opt sections with
      | error e => rw [hm2] at h; exact Except.noConfusion h
      | ok mt => exact calculate_metrics_zero_span m trains opt sections hne hspan mt hm2

/-- C5 witness: empty list is guarded; the degenerate single train `tZ0`
(departure = arrival) makes `optimize_schedule` fail. -/
theorem metrics_division_guards_witness :
    (optimize_schedule 5 [] [secA0]).isOk = true ∧
    (∃ mt, metricsOf (optimize_schedule 5 [] [secA0]) = some mt ∧
      mt.total_trains = 0 ∧ mt.throughput_trains_per_hour = 0 ∧
      mt.punctuality_percentage = 0) ∧
    (∀ res, optimize_schedule 5 [tZ0] [secA0] ≠ .ok res) :=
  metrics_division_guards 5 [secA0] [tZ0] (by decide) (by decide)

/-! ## Claim C8: a zero-delay scenario has zero impact -/

/-- Adding zero extra delay leaves the (deep-copied) train list
value-identical. -/
theorem applyDelayToFirst_zero (tid : String) :
    ∀ (l : List Train), applyDelayToFirst tid 0 l = l
  | [] => rfl
  | t :: ts => by
    unfold applyDelayToFirst
    split_ifs
    · rw [add_zero]
    · rw [applyDelayToFirst_zero tid ts]

/-- The impact of a delay-scenario run (`none` on a raised error). -/
def impactOf (r : Except String DelayReport) : Option DelayImpact :=
  r.toOption.map (·.impact)

/-- C8 — `analyze_delay_scenario` with zero additional delay optimizes two
value-identical inputs, so every delta of the impact report is exactly
zero. -/
theorem zero_delay_scenario_zero_impact (m : Int) (trains : List Train)
    (sections : List TrackSection) (train_id : String)
    (hmem : train_id ∈ trains.map (·.train_id))
    (hok : (analyze_delay_scenario m trains sections train_id 0).isOk = true) :
    impactOf (analyze_delay_scenario m trains sections train_id 0) =
      some { additional_conflicts := 0, additional_system_delay := 0,
             punctuality_impact := 0 } := by
  unfold analyze_delay_scenario at hok ⊢
  rw [applyDelayToFirst_zero] at hok ⊢
  dsimp only at hok ⊢
  cases ho : optimize_schedule m trains sections with
  | error e =>
    rw [ho] at hok
    dsimp only at hok
    exact Bool.noConfusion hok
  | ok r =>
    unfold impactOf
    dsimp only
    simp only [sub_self, Except.toOption, Option.map_some]
    rfl

/-- C8 witness: the well-behaved single train `tG0` with its own id and zero
extra delay. -/
theorem zero_delay_scenario_zero_impact_witness :
    impactOf (analyze_delay_scenario 5 [tG0] [secA0] "Z" 0) =
      some { additional_conflicts := 0, additional_system_delay := 0,
             punctuality_impact := 0 } :=
  zero_delay_scenario_zero_impact 5 [tG0] [secA0] "Z" (by decide) (by decide)

/-! ## Claim C4: what-if operations on an unknown train id -/

/-- With no matching id, `analyze_delay_scenario`'s mutation loop finds
nothing and the scenario set equals the original. -/
theorem applyDelayToFirst_absent (tid : String) (extra : Int) :
    ∀ (l : List Train), (∀ t ∈ l, t.train_id ≠ tid) →
      applyDelayToFirst tid extra l = l
  | [], _ => rfl
  | t :: ts, h => by
    unfold applyDelayToFirst
    rw [if_neg (by simpa using h t (List.mem_cons_self _ _))]
    rw [applyDelayToFirst_absent tid extra ts (fun u hu => h u (List.mem_cons_of_mem _ hu))]

/-- With no matching id, `analyze_priority_change`'s mutation loop finds
nothing: the scenario set equals the original and `original_priority` stays
`None`. -/
theorem setPriorityFirst_absent (tid : String) (np : TrainPriority) :
    ∀ (l : List Train), (∀ t ∈ l, t.train_id ≠ tid) →
      setPriorityFirst tid np l = (l, none)
  | [], _ => rfl
  | t :: ts, h => by
    unfold setPriorityFirst
    rw [if_neg (by simpa using h t (List.mem_cons_self _ _))]
    rw [setPriorityFirst_absent tid np ts (fun u hu => h u (List.mem_cons_of_mem _ hu))]

/-- C4 counterexample: given a train id not present in the set,
`analyze_delay_scenario` does NOT fail — it silently returns a no-op
comparison report. -/
theorem delay_scenario_unknown_id_no_error :
    (∀ t ∈ [tG0], t.train_id ≠ "NOPE") ∧
    (analyze_delay_scenario 5 [tG0] [secA0] "NOPE" 30).isOk = true := by
  exact ⟨by decide, by decide⟩

/-- C4 amended: on a train id absent from the set, `analyze_priority_change`
does fail (its report formatting dereferences the never-assigned original
priority), but `analyze_delay_scenario` silently returns a comparison of two
identical runs — every impact delta zero — instead of failing. -/
theorem whatif_unknown_id_behaviour (m : Int) (trains : List Train)
    (sections : List TrackSection) (train_id : String)
    (hid : ∀ t ∈ trains, t.train_id ≠ train_id) :
    (∀ np, ∃ e, analyze_priority_change m trains sections train_id np = .error e) ∧
    (∀ extra rep, analyze_delay_scenario m trains sections train_id extra = .ok rep →
      rep.impact = { additional_conflicts := 0, additional_system_delay := 0,
                     punctuality_impact := 0 }) := by
  constructor
  · intro np
    unfold analyze_priority_change
    rw [setPriorityFirst_absent train_id np trains hid]
    dsimp only
    cases ho : optimize_schedule m trains sections with
    | error e => exact ⟨e, rfl⟩
    | ok r => exact ⟨_, rfl⟩
  · intro extra rep h
    unfold analyze_delay_scenario at h
    rw [applyDelayToFirst_absent train_id extra trains hid] at h
    dsimp only at h
    cases ho : optimize_schedule m trains sections with
    | error e => rw [ho] at h; exact Except.noConfusion h
    | ok r =>
      rw [ho] at h
      dsimp only at h
      injection h with h'
      subst h'
      simp [sub_self]

/-- C4 witness: the single-train set `[tG0]` with the unknown id `NOPE`. -/
theorem whatif_unknown_id_behaviour_witness :
    (∃ e, analyze_priority_change 5 [tG0] [secA0] "NOPE" TrainPriority.LOW = .error e) ∧
    (∀ rep, analyze_delay_scenario 5 [tG0] [secA0] "NOPE" 30 = .ok rep →
      rep.impact = { additional_conflicts := 0, additional_system_delay := 0,
                     punctuality_impact := 0 }) :=
  ⟨(whatif_unknown_id_behaviour 5 [tG0] [secA0] "NOPE" (by decide)).1 TrainPriority.LOW,
   fun rep h => (whatif_unknown_id_behaviour 5 [tG0] [secA0] "NOPE" (by decide)).2 30 rep h⟩

/-! ## Claim C7: the optimizer never mutates caller-supplied trains -/

/-- The greedy loop only allocates at the end of the store. -/
theorem greedyStoreGo_extends (m : Int) (sections : List TrackSection) :
    ∀ (rs : List Nat) (h : Store) (acc : List Nat),
      ∃ ext, (greedyStoreGo m sections h acc rs).1 = h ++ ext
  | [], h, acc => ⟨[], by simp [greedyStoreGo]⟩
  | r :: rs, h, acc => by
    unfold greedyStoreGo
    cases ho : optimize_single_train m (readRef h r) (acc.map (readRef h)) sections with
    | error e => exact ⟨[], by simp⟩
    | ok ot =>
      rcases greedyStoreGo_extends m sections rs (h ++ [ot]) (acc ++ [h.length]) with ⟨ext, hext⟩
      exact ⟨[ot] ++ ext, by rw [hext, List.append_assoc]⟩

/-- Every reference the greedy loop returns is either a seed or points at a
freshly allocated cell. -/
theorem greedyStoreGo_refs (m : Int) (sections : List TrackSection) :
    ∀ (rs : List Nat) (h : Store) (acc out : List Nat),
      (greedyStoreGo m sections h acc rs).2 = .ok out →
      ∀ r ∈ out, r ∈ acc ∨ h.length ≤ r
  | [], h, acc, out, hg, r, hr => by
    unfold greedyStoreGo at hg
    dsimp only at hg
    injection hg with hg'
    subst hg'
    exact Or.inl hr
  | r0 :: rs, h, acc, out, hg, r, hr => by
    unfold greedyStoreGo at hg
    cases ho : optimize_single_train m (readRef h r0) (acc.map (readRef h)) sections with
    | error e =>
      rw [ho] at hg
      dsimp only at hg
      exact Except.noConfusion hg
    | ok ot =>
      rw [ho] at hg
      rcases greedyStoreGo_refs m sections rs (h ++ [ot]) (acc ++ [h.length]) out hg r hr
        with h' | h'
      · rcases List.mem_append.mp h' with h'' | h''
        · exact Or.inl h''
        · have : r = h.length := List.mem_singleton.mp h''
          exact Or.inr (le_of_eq this.symm)
      · rw [List.length_append] at h'
        exact Or.inr (by omega)

/-- `applyGreedyStore` only allocates at the end of the store. -/
theorem applyGreedyStore_extends (m : Int) (sections : List TrackSection) :
    ∀ (srefs : List Nat) (h : Store),
      ∃ ext, (applyGreedyStore m sections h srefs).1 = h ++ ext
  | [], h => ⟨[], by simp [applyGreedyStore]⟩
  | r0 :: rest, h => greedyStoreGo_extends m sections rest h [r0]

/-- Every reference `applyGreedyStore` returns is a working reference or
fresh. -/
theorem applyGreedyStore_refs (m : Int) (sections : List TrackSection) :
    ∀ (srefs : List Nat) (h : Store) (out : List Nat),
      (applyGreedyStore m sections h srefs).2 = .ok out →
      ∀ r ∈ out, r ∈ srefs ∨ h.length ≤ r
  | [], h, out, hg, r, hr => by
    unfold applyGreedyStore at hg
    dsimp only at hg
    injection hg with hg'
    subst hg'
    cases hr
  | r0 :: rest, h, out, hg, r, hr => by
    rcases greedyStoreGo_refs m sections rest h [r0] out hg r hr with h' | h'
    · exact Or.inl (by rw [List.mem_singleton.mp h']; exact List.mem_cons_self _ _)
    · exact Or.inr h'

/-- The final store of `optimize_schedule_store` is the greedy pass's store
(the remaining pipeline only reads). -/
theorem optimize_schedule_store_fst (m : Int) (h : Store) (refs : List Nat)
    (sections : List TrackSection) :
    (optimize_schedule_store m h refs sections).1 =
      (applyGreedyStore m sections (h ++ refs.map (readRef h))
        (insertionSortBy
          (fun r r' => trainLe (readRef (h ++ refs.map (readRef h)) r)
            (readRef (h ++ refs.map (readRef h)) r'))
          ((List.range refs.length).map (fun i => h.length + i)))).1 := by
  unfold optimize_schedule_store
  dsimp only
  rcases hap : applyGreedyStore m sections (h ++ refs.map (readRef h))
      (insertionSortBy
        (fun r r' => trainLe (readRef (h ++ refs.map (readRef h)) r)
          (readRef (h ++ refs.map (readRef h)) r'))
        ((List.range refs.length).map (fun i => h.length + i))) with ⟨h2, r2⟩
  cases r2 with
  | error e => rfl
  | ok outRefs =>
    dsimp only
    cases generate_optimized_schedule (outRefs.map (readRef h2)) sections with
    | error e => rfl
    | ok sch =>
      cases calculate_metrics m (refs.map (readRef h2)) (outRefs.map (readRef h2)) sections with
      | error e => rfl
      | ok mt =>
        cases detect_conflicts m (outRefs.map (readRef h2)) sections with
        | error e => rfl
        | ok cs => rfl

/-- A successful `optimize_schedule_store` returns exactly the greedy pass's
references. -/
theorem optimize_schedule_store_ok (m : Int) (h : Store) (refs : List Nat)
    (sections : List TrackSection) (out : List Nat)
    (hout : (optimize_schedule_store m h refs sections).2 = .ok out) :
    (applyGreedyStore m sections (h ++ refs.map (readRef h))
      (insertionSortBy
        (fun r r' => trainLe (readRef (h ++ refs.map (readRef h)) r)
          (readRef (h ++ refs.map (readRef h)) r'))
        ((List.range refs.length).map (fun i => h.length + i)))).2 = .ok out := by
  unfold optimize_schedule_store at hout
  dsimp only at hout
  rcases hap : applyGreedyStore m sections (h ++ refs.map (readRef h))
      (insertionSortBy
        (fun r r' => trainLe (readRef (h ++ refs.map (readRef h)) r)
          (readRef (h ++ refs.map (readRef h)) r'))
        ((List.range refs.length).map (fun i => h.length + i))) with ⟨h2, r2⟩
  rw [hap] at hout
  cases r2 with
  | error e =>
    dsimp only at hout ⊢
    exact hout
  | ok outRefs =>
    dsimp only at hout ⊢
    cases hgen : generate_optimized_schedule (outRefs.map (readRef h2)) sections with
    | error e => rw [hgen] at hout; dsimp only at hout; exact Except.noConfusion hout
    | ok sch =>
      rw [hgen] at hout
      dsimp only at hout
      cases hmet : calculate_metrics m (refs.map (readRef h2)) (outRefs.map (readRef h2)) sections with
      | error e => rw [hmet] at hout; dsimp only at hout; exact Except.noConfusion hout
      | ok mt =>
        rw [hmet] at hout
        dsimp only at hout
        cases hdet : detect_conflicts m (outRefs.map (readRef h2)) sections with
        | error e => rw [hdet] at hout; dsimp only at hout; exact Except.noConfusion hout
        | ok cs =>
          rw [hdet] at hout
          dsimp only at hout
          exact hout

/-- C7 — `optimize_schedule` operates on deep copies: the caller's store
prefix survives unchanged (so every caller-supplied train still reads its old
value after the call), and on success every returned reference is a freshly
allocated object distinct from every caller reference. -/
theorem optimize_mutates_no_caller_train (m : Int) (h : Store) (refs : List Nat)
    (sections : List TrackSection) (hv : ∀ r ∈ refs, r < h.length) :
    (∃ ext, (optimize_schedule_store m h refs sections).1 = h ++ ext) ∧
    (∀ r ∈ refs, readRef (optimize_schedule_store m h refs sections).1 r = readRef h r) ∧
    (∀ out, (optimize_schedule_store m h refs sections).2 = .ok out →
      ∀ r ∈ out, ∀ r' ∈ refs, r ≠ r') := by
  have hkeep : ∃ ext, (optimize_schedule_store m h refs sections).1 = h ++ ext := by
    rw [optimize_schedule_store_fst]
    rcases applyGreedyStore_extends m sections _ (h ++ refs.map (readRef h)) with ⟨ext, hext⟩
    exact ⟨refs.map (readRef h) ++ ext, by rw [hext, List.append_assoc]⟩
  refine ⟨hkeep, ?_, ?_⟩
  · intro r hr
    rcases hkeep with ⟨ext, hext⟩
    rw [hext]
    unfold readRef
    rw [List.getD_append _ _ _ _ (hv r hr)]
  · intro out hout r hr r' hr'
    have hgr := applyGreedyStore_refs m sections _ _ out
      (optimize_schedule_store_ok m h refs sections out hout) r hr
    have hge : h.length ≤ r := by
      rcases hgr with h' | h'
      · rcases (mem_insertionSortBy _ _ r).mp h' with h''
        rcases List.mem_map.mp h'' with ⟨i, _, hi⟩
        omega
      · rw [List.length_append] at h'
        omega
    have := hv r' hr'
    omega

/-- C7 witness: a two-object store optimized through the store model — the
caller's cells are untouched and the returned references are fresh. -/
theorem optimize_mutates_no_caller_train_witness :
    (∃ ext, (optimize_schedule_store 5 [wA0, wB0] [0, 1] [secA0]).1 = [wA0, wB0] ++ ext) ∧
    (∀ r ∈ [0, 1], readRef (optimize_schedule_store 5 [wA0, wB0] [0, 1] [secA0]).1 r =
      readRef [wA0, wB0] r) ∧
    (∀ out, (optimize_schedule_store 5 [wA0, wB0] [0, 1] [secA0]).2 = .ok out →
      ∀ r ∈ out, ∀ r' ∈ [0, 1], r ≠ r') :=
  optimize_mutates_no_caller_train 5 [wA0, wB0] [0, 1] [secA0] (by decide)

end Rail
